import Mathlib

/-!
Shallow embedding of the response formatter of `src/app_DEV.py`
(`ChatInterface._format_message_content` and its helpers), together with
theorems settling the frozen claims about the natural-language spec.

Strings are modelled as `List Char`.  Python's `re` module semantics for the
concrete patterns appearing in the source are modelled by direct scanners
(leftmost search, greedy/lazy backtracking spelled out per pattern); each
scanner carries a comment naming the pattern it denotes.  `\s` and `\d` are
modelled over their ASCII ranges (the inputs of interest are ASCII).

One genuine failure mode of the source is modelled with `Except`: the italic
substitution in `_format_inline_text` uses the pattern
`(?<!</?strong>)\*([^*]+)\*(?!</?strong>)`, whose look-behind group
`</?strong>` matches strings of two different lengths (8 and 9).  Python's
`re` only accepts fixed-width look-behinds, so compiling this pattern raises
`re.error("look-behind requires fixed-width pattern")`; consequently any call
of `_format_inline_text` with non-empty text raises.  Fallible code is
therefore embedded as `Except PyErr _`.
-/

namespace AHS

/-- Strings of the Python source, modelled as lists of characters. -/
abbrev Str := List Char

/-- The double-quote character. -/
def dquote : Char := Char.ofNat 34

/-- The apostrophe character. -/
def squote : Char := Char.ofNat 39

/-- The backtick character. -/
def bquote : Char := Char.ofNat 96

/-- Exceptions the embedded code can raise. -/
inductive PyErr where
  /-- `re.error`, raised while compiling an invalid pattern. -/
  | reError
  /-- `AttributeError`, e.g. calling `.replace` on `None`. -/
  | attributeError
deriving DecidableEq, Repr

deriving instance DecidableEq for Except

/-- Python's `\s` class (and `str.strip` character class), ASCII part:
space, tab, newline, carriage return, vertical tab, form feed. -/
def pyIsSpace (c : Char) : Bool :=
  c = ' ' || c = '\t' || c = '\n' || c = '\r' || c = Char.ofNat 11 || c = Char.ofNat 12

/-- Case-lowering of a whole string, modelling `str.lower()` and the effect
of `re.IGNORECASE` comparisons. -/
def lowerStr (s : Str) : Str := s.map Char.toLower

/-- Python `str.strip()`: remove leading and trailing whitespace. -/
def pyStrip (s : Str) : Str :=
  ((s.dropWhile pyIsSpace).reverse.dropWhile pyIsSpace).reverse

/-- Python `str.startswith(p)`. -/
def pyStartsWith (p s : Str) : Bool := p.isPrefixOf s

/-- Python `p in s` (substring containment). -/
def containsSub (p s : Str) : Bool := s.tails.any fun t => p.isPrefixOf t

/-- Python `sep.join(parts)`. -/
def joinStr (sep : Str) : List Str → Str
  | [] => []
  | [x] => x
  | x :: y :: rest => x ++ sep ++ joinStr sep (y :: rest)

/-- Python `s.split(sep)` for a non-empty separator `c0 :: cs`
(leftmost, non-overlapping). -/
def splitOnSeq (c0 : Char) (cs : Str) : Str → List Str
  | [] => [[]]
  | a :: rest =>
    if (c0 :: cs).isPrefixOf (a :: rest) then
      [] :: splitOnSeq c0 cs ((a :: rest).drop (c0 :: cs).length)
    else
      match splitOnSeq c0 cs rest with
      | [] => [[a]]
      | h :: t => (a :: h) :: t
termination_by s => s.length
decreasing_by
  · simp only [List.length_drop, List.length_cons]
    omega
  · simp only [List.length_cons]
    omega

/-- Python `str.replace(o :: os, new)`: leftmost non-overlapping replacement
of every occurrence of the (non-empty) pattern. -/
def strReplace (o : Char) (os new : Str) : Str → Str
  | [] => []
  | c :: rest =>
    if (o :: os).isPrefixOf (c :: rest) then
      new ++ strReplace o os new ((c :: rest).drop (o :: os).length)
    else
      c :: strReplace o os new rest
termination_by s => s.length
decreasing_by
  · simp only [List.length_drop, List.length_cons]
    omega
  · simp only [List.length_cons]
    omega

/-- Embedding of `_escape_html` (src/app_DEV.py lines 716-722): five chained
`str.replace` calls, in this order: `&`, `<`, `>`, `"`, `'`. -/
def escapeHtml (t : Str) : Str :=
  strReplace squote [] ("&#x27;".data)
    (strReplace dquote [] ("&quot;".data)
      (strReplace '>' [] ("&gt;".data)
        (strReplace '<' [] ("&lt;".data)
          (strReplace '&' [] ("&amp;".data) t))))

/-- Embedding of `_escape_html` applied to an optional value: the function
has no `None` guard, so `None.replace(...)` raises `AttributeError`. -/
def escapeHtmlOpt : Option Str → Except PyErr (Option Str)
  | none => Except.error PyErr.attributeError
  | some t => Except.ok (some (escapeHtml t))

/-- Character-wise escaping map (the specification-side description of what
the five ordered replacements amount to). -/
def escChar (c : Char) : Str :=
  if c = '&' then "&amp;".data
  else if c = '<' then "&lt;".data
  else if c = '>' then "&gt;".data
  else if c = dquote then "&quot;".data
  else if c = squote then "&#x27;".data
  else [c]

/-! ### Leftmost regex search -/

/-- Leftmost-match driver for `re.search`: try the pattern at every start
position, earliest first. -/
def reFirst (tryAt : Str → Option α) : Str → Option α
  | [] => tryAt []
  | c :: rest =>
    match tryAt (c :: rest) with
    | some v => some v
    | none => reFirst tryAt rest

/-- Boolean variant of `reFirst`, for patterns with no captures. -/
def reAny (p : Str → Bool) : Str → Bool
  | [] => p []
  | c :: rest => p (c :: rest) || reAny p rest

/-- Case-insensitive literal prefix: if the first `pat.length` characters of
`s` lower to `pat` (given in lowercase), return the remainder. -/
def stripPrefixCI (pat s : Str) : Option Str :=
  if lowerStr (s.take pat.length) = pat then some (s.drop pat.length) else none

/-- Match of `a\s+b` (with `re.IGNORECASE`) at the start of `s`, for literal
words `a`, `b` given in lowercase.  Since `b` starts with a non-whitespace
letter, the backtracking `\s+` can only stop at the end of the full
whitespace run. -/
def kwPairAt (a b : Str) (s : Str) : Bool :=
  match stripPrefixCI a s with
  | some r =>
    let w := r.takeWhile pyIsSpace
    w ≠ [] && (stripPrefixCI b (r.drop w.length)).isSome
  | none => false

/-- Match of a case-insensitive literal at the start of `s`. -/
def litAt (a : Str) (s : Str) : Bool := (stripPrefixCI a s).isSome

/-- Embedding of `_is_handyman_response` (src/app_DEV.py lines 506-513):
`re.search(r'estimated\s+time:', content, re.IGNORECASE)`,
`re.search(r'confidence:', ...)`, `re.search(r'schedule\s+summary:', ...)`,
all three required. -/
def isHandymanResponse (content : Str) : Bool :=
  reAny (kwPairAt ("estimated".data) ("time:".data)) content &&
  reAny (litAt ("confidence:".data)) content &&
  reAny (kwPairAt ("schedule".data) ("summary:".data)) content

/-! ### Field extraction regexes of `_format_handyman_response` -/

/-- Backtracking of a greedy `\s*` so that the character right after it can
start `.` (i.e. is not a newline): starting from position `n` (the end of
the whitespace run), step left until a position whose character exists and
is not `'\n'`; `none` if there is no such position. -/
def backScan (r : Str) : Nat → Option Nat
  | 0 =>
    match r.head? with
    | some c => if c = '\n' then none else some 0
    | none => none
  | n + 1 =>
    match (r.drop (n + 1)).head? with
    | some c => if c = '\n' then backScan r n else some (n + 1)
    | none => backScan r n

/-- Denotation of `\s*(.+?)(?=\n|$)` applied at the start of `r` (no
`re.MULTILINE`, `.` does not match newline): skip the greedy whitespace run
(backtracking as needed so the group can start), then the group lazily
extends to just before the next newline or the end.  Validated against
CPython on the edge cases (whitespace runs containing newlines, values on a
later line, all-newline remainders). -/
def fieldValue (r : Str) : Option Str :=
  match backScan r (r.takeWhile pyIsSpace).length with
  | none => none
  | some p => some ((r.drop p).takeWhile fun c => c ≠ '\n')

/-- Match of `pat` (case-insensitive literal) followed by
`\s*(.+?)(?=\n|$)` at the start of `s`, returning the captured group. -/
def tryFieldAt (pat : Str) (s : Str) : Option Str :=
  (stripPrefixCI pat s).bind fieldValue

/-- Embedding of
`re.search(r'Estimated time:\s*(.+?)(?=\n|$)', content, re.IGNORECASE)`. -/
def timeMatch (content : Str) : Option Str :=
  reFirst (tryFieldAt ("estimated time:".data)) content

/-- Embedding of
`re.search(r'Confidence:\s*(.+?)(?=\n|$)', content, re.IGNORECASE)`. -/
def confMatch (content : Str) : Option Str :=
  reFirst (tryFieldAt ("confidence:".data)) content

/-- Denotation of `\s*\n` at the start of `r`: the greedy `\s*` backtracks
so that the very next character is a newline, i.e. the match ends right
after the last newline of the leading whitespace run; fails when that run
contains no newline.  Returns the remainder. -/
def afterWsNewline (r : Str) : Option Str :=
  let w := r.takeWhile pyIsSpace
  if w.contains '\n' then
    some (r.drop (w.length - (w.reverse.takeWhile fun c => c ≠ '\n').length))
  else none

/-- One iteration of `(?:\s*-\s*.+(?:\n|$))*` without `re.DOTALL` (the
Schedule Summary block): leading whitespace (which may cross newlines), a
dash, whitespace after the dash (backtracking so `.+` can start on a
non-newline character), the rest of that line, and the line's newline if
present.  Returns the number of characters consumed. -/
def bulletIter (r : Str) : Option Nat :=
  let u := (r.takeWhile pyIsSpace).length
  match (r.drop u).head? with
  | some c =>
    if c = '-' then
      let r2 := r.drop (u + 1)
      match backScan r2 (r2.takeWhile pyIsSpace).length with
      | none => none
      | some p =>
        let lineLen := ((r2.drop p).takeWhile fun x => x ≠ '\n').length
        let base := u + 1 + p + lineLen
        match (r.drop base).head? with
        | some nl => if nl = '\n' then some (base + 1) else none
        | none => some base
    else none
  | none => none

/-- The full `(?:\s*-\s*.+(?:\n|$))*` block (greedy, no backtracking needed
since nothing follows the group in the pattern): the concatenation of the
maximal run of bullet iterations. -/
def bulletBlock (r : Str) : Str :=
  match h : bulletIter r with
  | none => []
  | some n => r.take n ++ bulletBlock (r.drop n)
termination_by r.length
decreasing_by
  have h1 : 1 ≤ n := by
    simp only [bulletIter] at h
    split at h
    · split at h
      · split at h
        · exact absurd h (by simp)
        · split at h
          · split at h
            · injection h with h2; omega
            · exact absurd h (by simp)
          · injection h with h2; omega
      · exact absurd h (by simp)
    · exact absurd h (by simp)
  have h2 : r ≠ [] := by
    intro he
    subst he
    exact absurd h (by simp [bulletIter])
  have h3 := List.length_pos.mpr h2
  simp only [List.length_drop]
  omega

/-- Match of the summary pattern
`re.search(r'Schedule Summary:\s*\n((?:\s*-\s*.+(?:\n|$))*)', content,
re.IGNORECASE | re.MULTILINE)` at the start of `s`, returning group 1. -/
def trySummaryAt (s : Str) : Option Str :=
  (stripPrefixCI ("schedule summary:".data) s).bind fun r =>
    (afterWsNewline r).map bulletBlock

/-- Embedding of the `summary_match` search. -/
def summaryMatch (content : Str) : Option Str := reFirst trySummaryAt content

/-- Denotation of `[^:]*:` at the start of `r`: everything up to and
including the first colon; fails when `r` has no colon. -/
def afterFirstColon (r : Str) : Option Str :=
  if r.contains ':' then some ((r.dropWhile fun c => c ≠ ':').drop 1) else none

/-- Group 1 of `((?:\s*-\s*.+(?:\n|$))*)` under `re.DOTALL`: because `.+`
then matches across newlines, a first iteration that finds a dash (after
optional whitespace) with at least one character after it consumes
everything to the end of the string, so the group is either all of `r` or
empty.  Validated against CPython. -/
def questionsGroup (r : Str) : Str :=
  let u := (r.takeWhile pyIsSpace).length
  match (r.drop u).head? with
  | some c => if c = '-' && r.drop (u + 1) ≠ [] then r else []
  | none => []

/-- Match of the questions pattern
`re.search(r'To improve this estimate[^:]*:\s*\n((?:\s*-\s*.+(?:\n|$))*)',
content, re.IGNORECASE | re.MULTILINE | re.DOTALL)` at the start of `s`. -/
def tryQuestionsAt (s : Str) : Option Str :=
  (stripPrefixCI ("to improve this estimate".data) s).bind fun r =>
    (afterFirstColon r).bind fun r2 =>
      (afterWsNewline r2).map questionsGroup

/-- Embedding of the `questions_match` search. -/
def questionsMatch (content : Str) : Option Str := reFirst tryQuestionsAt content

/-! ### The handyman renderer `_format_handyman_response`
(src/app_DEV.py lines 515-605).  The Python function builds a list
`html_parts` of strings and returns `''.join(html_parts)`; the embedding
mirrors that list structure. -/

/-- Badge class selection: `confidence` is the stripped, lowered capture;
`'low' in confidence` / `'high' in confidence` pick the badge suffix. -/
def badgeClass (confidence : Str) : Str :=
  if containsSub ("low".data) confidence then "confidence-badge low".data
  else if containsSub ("high".data) confidence then "confidence-badge high".data
  else "confidence-badge".data

/-- Parts appended for the `Estimated time` row when `time_match` hit. -/
def timeRowParts (t : Str) : List Str :=
  [("<div class=\"estimate-row\">").data,
   ("<span class=\"estimate-emoji\">⏱️</span>").data,
   ("<span class=\"estimate-label\">Estimated time:</span>").data,
   ("<span>").data ++ escapeHtml (pyStrip t) ++ ("</span>").data,
   ("</div>").data]

/-- Parts appended for the `Confidence` row when `confidence_match` hit. -/
def confRowParts (c : Str) : List Str :=
  [("<div class=\"estimate-row\">").data,
   ("<span class=\"estimate-emoji\">🎯</span>").data,
   ("<span class=\"estimate-label\">Confidence:</span>").data,
   ("<span class=\"").data ++ badgeClass (lowerStr (pyStrip c)) ++ ("\">").data
     ++ escapeHtml (pyStrip c) ++ ("</span>").data,
   ("</div>").data]

/-- The header section: emitted only when at least one of the two rows is
present. -/
def headerParts (tm cm : Option Str) : List Str :=
  if tm.isSome || cm.isSome then
    ("<div class=\"summary-header\">").data ::
      ((match tm with | some t => timeRowParts t | none => []) ++
       (match cm with | some c => confRowParts c | none => []) ++
       [("</div>").data])
  else []

/-- The collected summary bullet texts: split group 1 on newlines, strip
each line, keep lines starting with `- `, drop that prefix and strip. -/
def summaryItemsOf (g : Str) : List Str :=
  (((pyStrip g).splitOn '\n').map pyStrip).filterMap fun line =>
    if line ≠ [] && pyStartsWith ('-' :: ' ' :: []) line then
      some (pyStrip (line.drop 2))
    else none

/-- The summary section: header, one `ul`, and (when any items were
collected) a single `li` whose text is the comma-joined items. -/
def summarySection (g : Str) : List Str :=
  [("<div class=\"section-header\">").data,
   ("<span class=\"section-emoji\">📋</span>").data,
   ("<span>Schedule Summary</span>").data,
   ("</div>").data,
   ("<ul class=\"enhanced-list task-list\">").data] ++
  (if summaryItemsOf g ≠ [] then
    [("<li>").data,
     ("<span class=\"list-emoji\">🔧</span>").data,
     ("<span>").data ++ escapeHtml (joinStr (", ".data) (summaryItemsOf g)) ++ ("</span>").data,
     ("</li>").data]
   else []) ++
  [("</ul>").data]

/-- Parts appended for one follow-up question item. -/
def questionLi (q : Str) : List Str :=
  [("<li>").data,
   ("<span class=\"list-emoji\">💭</span>").data,
   ("<span>").data ++ escapeHtml q ++ ("</span>").data,
   ("</li>").data]

/-- The per-line loop of the questions section: strip the line, require the
`- ` prefix, strip the item text, and emit an `li` for each non-empty
item. -/
def questionLoopParts : List Str → List Str
  | [] => []
  | l :: rest =>
    let line := pyStrip l
    if line ≠ [] && pyStartsWith ('-' :: ' ' :: []) line then
      (let q := pyStrip (line.drop 2)
       if q ≠ [] then questionLi q ++ questionLoopParts rest
       else questionLoopParts rest)
    else questionLoopParts rest

/-- The item (if any) contributed by one already-stripped line of the
questions block. -/
def questionItemOfLine (line : Str) : Option Str :=
  if line ≠ [] && pyStartsWith ('-' :: ' ' :: []) line then
    (let q := pyStrip (line.drop 2)
     if q ≠ [] then some q else none)
  else none

/-- The collected question texts (the items the loop renders). -/
def questionItemsOf (g : Str) : List Str :=
  (((pyStrip g).splitOn '\n').map pyStrip).filterMap questionItemOfLine

/-- The questions section: header, one `ul`, one `li` per question. -/
def questionSection (g : Str) : List Str :=
  [("<div class=\"section-header\">").data,
   ("<span class=\"section-emoji\">❓</span>").data,
   ("<span>To improve this estimate, please answer the following</span>").data,
   ("</div>").data,
   ("<ul class=\"enhanced-list question-list\">").data] ++
  questionLoopParts ((pyStrip g).splitOn '\n') ++
  [("</ul>").data]

/-- The full `html_parts` list built by `_format_handyman_response`. -/
def htmlPartsOf (content : Str) : List Str :=
  headerParts (timeMatch content) (confMatch content) ++
  (match summaryMatch content with
   | some g => summarySection g
   | none => []) ++
  (match questionsMatch content with
   | some g => questionSection g
   | none => [])

/-- Embedding of `_format_handyman_response`: `''.join(html_parts)`. -/
def formatHandymanResponse (content : Str) : Str :=
  joinStr [] (htmlPartsOf content)

/-! ### The inline markup engine `_format_inline_text`
(src/app_DEV.py lines 698-714). -/

/-- Global substitution `re.sub(r'`([^`]+)`', r'<code>\1</code>', text)`:
at each backtick, the greedy `[^`]+` runs to the next backtick; the match
needs a non-empty group and a closing backtick, otherwise scanning resumes
at the next position. -/
def codeSub : Str → Str
  | [] => []
  | c :: rest =>
    if c = bquote then
      (let grp := rest.takeWhile fun x => x ≠ bquote
       if grp.length < rest.length && grp ≠ [] then
         ("<code>").data ++ grp ++ ("</code>").data ++ codeSub (rest.drop (grp.length + 1))
       else c :: codeSub rest)
    else c :: codeSub rest
termination_by s => s.length
decreasing_by
  · simp only [List.length_drop, List.length_cons]
    omega
  · simp only [List.length_cons]
    omega
  · simp only [List.length_cons]
    omega

/-- Scan for the closing pair of a bold span: the group has already taken at
least one character (`acc`); the lazy `(.+?)` stops at the first double
marker, consuming only non-newline characters (no `re.DOTALL`). -/
def boldCloseAux (bc : Char) (acc : Str) : Str → Option (Str × Str)
  | [] => none
  | c :: rest =>
    if c = bc && rest.head? = some bc then some (acc.reverse, rest.drop 1)
    else if c = '\n' then none
    else boldCloseAux bc (c :: acc) rest

/-- Find the lazy group and remainder for `mm(.+?)mm` (with `mm` the double
marker `bc bc`) starting right after an opening double marker. -/
def findBoldClose (bc : Char) : Str → Option (Str × Str)
  | [] => none
  | c :: rest => if c = '\n' then none else boldCloseAux bc [c] rest

/-- Global substitution `re.sub(r'\*\*(.+?)\*\*', r'<strong>\1</strong>')`
(and its `__` twin, via `bc`): the leftmost opening double marker whose lazy
group finds a closing double marker is rewritten, and scanning resumes
after the closing marker. -/
def boldSub (bc : Char) : Str → Str
  | [] => []
  | c :: rest =>
    if c = bc && rest.head? = some bc then
      match hf : findBoldClose bc (rest.drop 1) with
      | some (g, after) =>
        ("<strong>").data ++ g ++ ("</strong>").data ++ boldSub bc after
      | none => c :: boldSub bc rest
    else c :: boldSub bc rest
termination_by s => s.length
decreasing_by
  · have aux : ∀ (u acc g2 a2 : Str), boldCloseAux bc acc u = some (g2, a2) →
        a2.length < u.length := by
      intro u
      induction u with
      | nil => intro acc g2 a2 h; exact absurd h (by simp [boldCloseAux])
      | cons x xs ih =>
        intro acc g2 a2 h
        simp only [boldCloseAux] at h
        split at h
        · injection h with h1
          have h2 : a2 = xs.drop 1 := congrArg Prod.snd h1.symm
          subst h2
          simp only [List.length_drop, List.length_cons]
          omega
        · split at h
          · exact absurd h (by simp)
          · have := ih (x :: acc) g2 a2 h
            simp only [List.length_cons]
            omega
    have h1 : after.length < (rest.drop 1).length := by
      cases hd : rest.drop 1 with
      | nil => rw [hd] at hf; exact absurd hf (by simp [findBoldClose])
      | cons x xs =>
        rw [hd] at hf
        simp only [findBoldClose] at hf
        split at hf
        · exact absurd hf (by simp)
        · have := aux xs [x] g after hf
          simp only [List.length_cons]
          omega
    simp only [List.length_drop] at h1
    simp only [List.length_cons]
    omega
  · simp only [List.length_cons]
    omega
  · simp only [List.length_cons]
    omega

/-- Embedding of `_format_inline_text` (src/app_DEV.py lines 698-714).
Empty text returns unchanged via the `if not text` guard.  For non-empty
text the code-span and bold substitutions run, and then the italic
substitution `re.sub(r'(?<!</?strong>)\*([^*]+)\*(?!</?strong>)', ...)`
raises `re.error` while compiling its pattern: the look-behind `</?strong>`
is variable-width (8 or 9 characters), which Python's `re` rejects with
"look-behind requires fixed-width pattern".  So every call with non-empty
text raises, and the partially substituted text is discarded. -/
def formatInlineText (t : Str) : Except PyErr Str :=
  if t = [] then Except.ok t
  else
    let _afterCodeAndBold := boldSub '_' (boldSub '*' (codeSub t))
    Except.error PyErr.reError

/-! ### The paragraph segmenter `_format_paragraph`
(src/app_DEV.py lines 647-691) and `_format_general_content`
(lines 607-621). -/

/-- The code-fence content selection: strip the odd-indexed part, and if it
has several lines and its first line does not start with a space after
stripping (a condition that is always true of a stripped line, but kept as
written), drop the first line as a language tag. -/
def codeBlockContent (part : Str) : Str :=
  let stripped := pyStrip part
  let lines := stripped.splitOn '\n'
  if lines.length > 1 && !(pyStartsWith [' '] (pyStrip (lines.headD []))) then
    joinStr ['\n'] (lines.drop 1)
  else stripped

/-- The `for i, part in enumerate(parts)` loop of the code-fence branch:
even parts are prose (inline-formatted when non-empty after stripping), odd
parts are code blocks. -/
def fenceFold : List Str → Bool → Except PyErr (List Str)
  | [], _ => Except.ok []
  | p :: rest, even =>
    if even then
      (if pyStrip p ≠ [] then
        match formatInlineText (pyStrip p) with
        | Except.error e => Except.error e
        | Except.ok f => (fenceFold rest false).map fun l => f :: l
       else fenceFold rest false)
    else
      (if pyStrip p ≠ [] then
        (fenceFold rest true).map fun l =>
          (("<pre><code>").data ++ escapeHtml (codeBlockContent p) ++ ("</code></pre>").data) :: l
       else fenceFold rest true)

/-- The bullet-line match `re.match(r'^[•\-\*]\s+(.+)', line)` on an
already-stripped line, returning group 1. -/
def isBulletLine (line : Str) : Option Str :=
  match line with
  | [] => none
  | c :: rest =>
    if c = '•' || c = '-' || c = '*' then
      (let w := rest.takeWhile pyIsSpace
       if w ≠ [] && rest.drop w.length ≠ [] then some (rest.drop w.length) else none)
    else none

/-- The numbered-line match `re.match(r'^\d+\.\s+(.+)', line)` on an
already-stripped line, returning group 1. -/
def isNumberLine (line : Str) : Option Str :=
  let d := line.takeWhile fun c => c.isDigit
  if d ≠ [] then
    match line.drop d.length with
    | c :: rest =>
      if c = '.' then
        (let w := rest.takeWhile pyIsSpace
         if w ≠ [] && rest.drop w.length ≠ [] then some (rest.drop w.length) else none)
      else none
    | [] => none
  else none

/-- The list pre-check `re.compile(r'^[\s]*[•\-\*]\s+|^\d+\.\s+')` applied
to a raw (unstripped) line. -/
def listPrecheck (line : Str) : Bool :=
  (match line.dropWhile pyIsSpace with
   | c :: rest => (c = '•' || c = '-' || c = '*') && rest.takeWhile pyIsSpace ≠ []
   | [] => false) ||
  (let d := line.takeWhile fun c => c.isDigit
   d ≠ [] &&
   match line.drop d.length with
   | c :: rest => c = '.' && rest.takeWhile pyIsSpace ≠ []
   | [] => false)

/-- The two list tags the segmenter toggles between. -/
inductive ListTag where
  | ul
  | ol
deriving DecidableEq, Repr

/-- Opening tag. -/
def tagOpen : ListTag → Str
  | ListTag.ul => "<ul>".data
  | ListTag.ol => "<ol>".data

/-- Closing tag. -/
def tagClose : ListTag → Str
  | ListTag.ul => "</ul>".data
  | ListTag.ol => "</ol>".data

/-- The line loop of the list branch: the `in_list`/`list_type` state is an
`Option ListTag`; a bullet or numbered line opens or switches the list, any
other line closes it and emits a bare paragraph, and a still-open list is
closed at the end. -/
def listLoop : List Str → Option ListTag → Except PyErr (List Str)
  | [], state =>
    (match state with
     | some t => Except.ok [tagClose t]
     | none => Except.ok [])
  | rawLine :: rest, state =>
    let line := pyStrip rawLine
    if line = [] then listLoop rest state
    else
      match isBulletLine line with
      | some g =>
        (let pre : List Str :=
          match state with
          | some ListTag.ul => []
          | some ListTag.ol => [tagClose ListTag.ol, tagOpen ListTag.ul]
          | none => [tagOpen ListTag.ul]
         match formatInlineText g with
         | Except.error e => Except.error e
         | Except.ok f =>
           (listLoop rest (some ListTag.ul)).map fun l =>
             pre ++ (("<li>").data ++ f ++ ("</li>").data) :: l)
      | none =>
        match isNumberLine line with
        | some g =>
          (let pre : List Str :=
            match state with
            | some ListTag.ol => []
            | some ListTag.ul => [tagClose ListTag.ul, tagOpen ListTag.ol]
            | none => [tagOpen ListTag.ol]
           match formatInlineText g with
           | Except.error e => Except.error e
           | Except.ok f =>
             (listLoop rest (some ListTag.ol)).map fun l =>
               pre ++ (("<li>").data ++ f ++ ("</li>").data) :: l)
        | none =>
          (let pre : List Str :=
            match state with
            | some t => [tagClose t]
            | none => []
           match formatInlineText line with
           | Except.error e => Except.error e
           | Except.ok f =>
             (listLoop rest none).map fun l =>
               pre ++ (("<p>").data ++ f ++ ("</p>").data) :: l)

/-- Inline-format each stripped non-empty line of a regular paragraph. -/
def mapInline : List Str → Except PyErr (List Str)
  | [] => Except.ok []
  | l :: rest =>
    match formatInlineText l with
    | Except.error e => Except.error e
    | Except.ok f => (mapInline rest).map fun fl => f :: fl

/-- Embedding of `_format_paragraph` (src/app_DEV.py lines 647-691). -/
def formatParagraph (p : Str) : Except PyErr Str :=
  if containsSub (bquote :: bquote :: bquote :: []) p then
    (fenceFold (splitOnSeq bquote (bquote :: bquote :: []) p) true).map (joinStr [])
  else
    let lines := p.splitOn '\n'
    if lines.length > 1 && (lines.filter fun l => pyStrip l ≠ []).any listPrecheck then
      (listLoop lines none).map (joinStr [])
    else
      match mapInline (((p.splitOn '\n').map pyStrip).filter fun l => l ≠ []) with
      | Except.error e => Except.error e
      | Except.ok fl =>
        Except.ok (("<p>").data ++ joinStr ("<br>".data) fl ++ ("</p>").data)

/-- The paragraph loop of `_format_general_content`. -/
def mapParagraphs : List Str → Except PyErr (List Str)
  | [] => Except.ok []
  | p :: rest =>
    if pyStrip p = [] then mapParagraphs rest
    else
      match formatParagraph (pyStrip p) with
      | Except.error e => Except.error e
      | Except.ok f => (mapParagraphs rest).map fun fl => f :: fl

/-- Embedding of `_format_general_content` (src/app_DEV.py lines 607-621):
split on `'\n\n'`, format each non-blank paragraph, join with
`'<br><br>'`. -/
def formatGeneralContent (content : Str) : Except PyErr Str :=
  (mapParagraphs (splitOnSeq '\n' ['\n'] content)).map (joinStr ("<br><br>".data))

/-- Embedding of `_format_message_content` (src/app_DEV.py lines 494-504):
falsy (empty) content is returned unchanged; handyman-classified content
goes to the handyman renderer; everything else to the general formatter. -/
def formatMessageContent (content : Str) : Except PyErr Str :=
  if content = [] then Except.ok content
  else if isHandymanResponse content then Except.ok (formatHandymanResponse content)
  else formatGeneralContent content

/-- Single-character substitution step. -/
def escStep (o : Char) (new : Str) (c : Char) : Str := if c = o then new else [c]

/-- The text contains, somewhere, a case-insensitive occurrence of word `a`,
then one or more whitespace characters, then the literal `b`
(the denotation of `re.search(r'a\s+b', s, re.IGNORECASE)`). -/
def ContainsCIPair (a b s : Str) : Prop :=
  ∃ pre aSeg w bSeg post,
    s = pre ++ aSeg ++ w ++ bSeg ++ post ∧ lowerStr aSeg = a ∧
    w ≠ [] ∧ (∀ c ∈ w, pyIsSpace c = true) ∧ lowerStr bSeg = b

/-- The text contains, somewhere, a case-insensitive occurrence of the
literal `a` (the denotation of `re.search(a, s, re.IGNORECASE)`). -/
def ContainsCILit (a s : Str) : Prop :=
  ∃ pre aSeg post, s = pre ++ aSeg ++ post ∧ lowerStr aSeg = a

/-- Every fixed label, icon and tag string the handyman renderer can emit. -/
def allFixedParts : List Str :=
  [("<div class=\"summary-header\">").data,
   ("<div class=\"estimate-row\">").data,
   ("<span class=\"estimate-emoji\">⏱️</span>").data,
   ("<span class=\"estimate-label\">Estimated time:</span>").data,
   ("<span class=\"estimate-emoji\">🎯</span>").data,
   ("<span class=\"estimate-label\">Confidence:</span>").data,
   ("<span class=\"").data,
   ("\">").data,
   ("confidence-badge low").data,
   ("confidence-badge high").data,
   ("confidence-badge").data,
   ("<div class=\"section-header\">").data,
   ("<span class=\"section-emoji\">📋</span>").data,
   ("<span>Schedule Summary</span>").data,
   ("<ul class=\"enhanced-list task-list\">").data,
   ("<span class=\"section-emoji\">❓</span>").data,
   ("<span>To improve this estimate, please answer the following</span>").data,
   ("<ul class=\"enhanced-list question-list\">").data,
   ("<span class=\"list-emoji\">🔧</span>").data,
   ("<span class=\"list-emoji\">💭</span>").data,
   ("<li>").data,
   ("</li>").data,
   ("<span>").data,
   ("</span>").data,
   ("</div>").data,
   ("</ul>").data]

/-- The pool of all characters the renderer can emit besides escaped field
text. -/
def templatePool : Str := allFixedParts.flatten

/-- Concrete general-classified input used by C4's witness: it has
`Confidence:` and `Schedule Summary:` but no `Estimated time:`. -/
def c4Input : Str := ("Confidence: High\nSchedule Summary:\n- x").data

/-- Concrete domain input used by C5's witness (the spec's summary
collapsing example, with the two header fields so it is a classified
domain response). -/
def c5Input : Str :=
  ("Estimated time: 2 hours\nConfidence: High\nSchedule Summary:\n- Replace faucet\n- Check pipes").data

/-- Group 1 captured by the summary regex on `c5Input`. -/
def c5Group : Str := ("- Replace faucet\n- Check pipes").data

/-- Concrete domain input used by C6's witness: a questions block with two
bullets. -/
def c6Input : Str :=
  ("Estimated time: 1 hour\nConfidence: Low\nSchedule Summary:\n- Fix door\nTo improve this estimate, please answer the following:\n- Is the door interior?\n- Is the frame damaged?").data

/-- Group 1 captured by the questions regex on `c6Input`. -/
def c6Group : Str := ("- Is the door interior?\n- Is the frame damaged?").data

/-- Concrete domain input used by C10's witness: prose lines before,
between and after the template fields. -/
def c10Input : Str :=
  ("Intro prose here\nEstimated time: 3 hours\nmiddle prose\nConfidence: Medium\nSchedule Summary:\n- Patch wall\ntrailing prose here").data

set_option allowUnsafeReducibility true in
attribute [semireducible] splitOnSeq strReplace bulletBlock codeSub boldSub

/-! ### Properties of the escaping utility -/


theorem strReplace_single (o : Char) (new : Str) (s : Str) :
    strReplace o [] new s = s.flatMap (escStep o new) := by
  induction s with
  | nil => rw [strReplace]; rfl
  | cons c rest ih =>
    rw [strReplace]
    by_cases hc : c = o
    · subst hc
      rw [if_pos (by simp [List.isPrefixOf])]
      simp [escStep, ih]
    · rw [if_neg (by simp [List.isPrefixOf, Ne.symm hc])]
      simp [escStep, hc, ih]

theorem escChar_chain (c : Char) :
    ((((escStep '&' ("&amp;".data) c).flatMap (escStep '<' ("&lt;".data))).flatMap
        (escStep '>' ("&gt;".data))).flatMap (escStep dquote ("&quot;".data))).flatMap
      (escStep squote ("&#x27;".data)) = escChar c := by
  by_cases h1 : c = '&'
  · subst h1; decide
  by_cases h2 : c = '<'
  · subst h2; decide
  by_cases h3 : c = '>'
  · subst h3; decide
  by_cases h4 : c = dquote
  · subst h4; decide
  by_cases h5 : c = squote
  · subst h5; decide
  simp [escStep, escChar, h1, h2, h3, h4, h5]

/-- The five ordered replacements of `_escape_html` amount to one
character-wise escaping pass: later replacements never rewrite the output
of earlier ones (no double escaping), and characters other than the five
metacharacters are untouched. -/
theorem escapeHtml_eq_flatMap (t : Str) : escapeHtml t = t.flatMap escChar := by
  unfold escapeHtml
  rw [strReplace_single, strReplace_single, strReplace_single, strReplace_single,
    strReplace_single]
  induction t with
  | nil => rfl
  | cons c rest ih =>
    simp only [List.flatMap_cons, List.flatMap_append]
    rw [ih]
    congr 1
    exact escChar_chain c

/-! ### Specification-side characterisation of the detector -/


theorem lowerStr_length (s : Str) : (lowerStr s).length = s.length :=
  List.length_map s Char.toLower

theorem reAny_iff (p : Str → Bool) (s : Str) :
    reAny p s = true ↔ ∃ l₁ l₂, s = l₁ ++ l₂ ∧ p l₂ = true := by
  induction s with
  | nil =>
    simp only [reAny]
    constructor
    · intro h
      exact ⟨[], [], rfl, h⟩
    · rintro ⟨l₁, l₂, h1, h2⟩
      obtain ⟨rfl, rfl⟩ := List.append_eq_nil.mp h1.symm
      exact h2
  | cons c rest ih =>
    simp only [reAny, Bool.or_eq_true, ih]
    constructor
    · rintro (h | ⟨l₁, l₂, rfl, h2⟩)
      · exact ⟨[], c :: rest, rfl, h⟩
      · exact ⟨c :: l₁, l₂, rfl, h2⟩
    · rintro ⟨l₁, l₂, he, h2⟩
      cases l₁ with
      | nil =>
        left
        have h3 : l₂ = c :: rest := by simpa using he.symm
        rw [h3] at h2
        exact h2
      | cons a l₁ =>
        right
        injection he with h3 h4
        exact ⟨l₁, l₂, h4, h2⟩

theorem stripPrefixCI_some_iff (pat s r : Str) :
    stripPrefixCI pat s = some r ↔ ∃ u, s = u ++ r ∧ lowerStr u = pat := by
  constructor
  · intro h
    unfold stripPrefixCI at h
    split at h
    · rename_i hc
      injection h with h1
      subst h1
      exact ⟨s.take pat.length, (List.take_append_drop _ s).symm, hc⟩
    · exact absurd h (by simp)
  · rintro ⟨u, rfl, hu⟩
    have hl : pat.length = u.length := by rw [← hu, lowerStr_length]
    unfold stripPrefixCI
    rw [hl, List.take_left, List.drop_left, hu, if_pos rfl]

/-- A whitespace character is unchanged by lowering (lowering only moves
the 26 uppercase ASCII letters). -/
theorem toLower_of_space {x : Char} (h : pyIsSpace x = true) :
    Char.toLower x = x := by
  simp only [pyIsSpace, Bool.or_eq_true, decide_eq_true_eq] at h
  rcases h with ((((h | h) | h) | h) | h) | h <;> (subst h; decide)

theorem not_space_of_toLower {bh x : Char} (hbh : pyIsSpace bh = false)
    (hx : Char.toLower x = bh) : pyIsSpace x = false := by
  by_contra h
  have h2 : pyIsSpace x = true := by
    cases hp : pyIsSpace x
    · exact absurd hp h
    · rfl
  rw [toLower_of_space h2] at hx
  subst hx
  rw [hbh] at h2
  exact absurd h2 (by simp)

/-- Correctness of the `a\s+b` scanner: because the first character of `b`
is not whitespace, the greedy `\s+` can only stop at the end of the full
whitespace run, and scanning every start position is exactly the
existential decomposition. -/
theorem reAny_kwPair_iff (a : Str) (bh : Char) (bt : Str)
    (hbh : pyIsSpace bh = false) (s : Str) :
    reAny (kwPairAt a (bh :: bt)) s = true ↔ ContainsCIPair a (bh :: bt) s := by
  rw [reAny_iff]
  constructor
  · rintro ⟨l₁, l₂, rfl, h2⟩
    unfold kwPairAt at h2
    split at h2
    case h_2 => exact absurd h2 (by simp)
    case h_1 r hr =>
      simp only [Bool.and_eq_true, ne_eq, decide_eq_true_eq, Option.isSome_iff_exists] at h2
      obtain ⟨hw, r2, hr2⟩ := h2
      obtain ⟨u, rfl, hu⟩ := (stripPrefixCI_some_iff _ _ _).mp hr
      obtain ⟨v, hv, hvl⟩ := (stripPrefixCI_some_iff _ _ _).mp hr2
      obtain ⟨t, ht⟩ := List.takeWhile_prefix (l := r) pyIsSpace
      set k := r.takeWhile pyIsSpace with hk
      have hdrop : r.drop k.length = t := by
        rw [← ht, List.drop_left]
      have ht2 : t = v ++ r2 := by rw [← hdrop]; exact hv
      refine ⟨l₁, u, k, v, r2, ?_, hu, hw, ?_, hvl⟩
      · rw [← ht, ht2]
        simp only [List.append_assoc]
      · intro c hc
        rw [hk] at hc
        exact List.mem_takeWhile_imp hc
  · rintro ⟨pre, aSeg, w, bSeg, post, rfl, ha, hw, hws, hb⟩
    refine ⟨pre, aSeg ++ (w ++ (bSeg ++ post)), by simp only [List.append_assoc], ?_⟩
    obtain ⟨x, xs, rfl⟩ : ∃ x xs, bSeg = x :: xs := by
      cases bSeg with
      | nil => exact absurd hb (by simp [lowerStr])
      | cons x xs => exact ⟨x, xs, rfl⟩
    have h1 : stripPrefixCI a (aSeg ++ (w ++ (x :: xs ++ post))) = some (w ++ (x :: xs ++ post)) :=
      (stripPrefixCI_some_iff _ _ _).mpr ⟨aSeg, rfl, ha⟩
    have hxl : Char.toLower x = bh := by
      simpa [lowerStr] using congrArg (fun l => l.headD bh) hb
    have hxs : pyIsSpace x = false := not_space_of_toLower hbh hxl
    have hrun : (w ++ (x :: xs ++ post)).takeWhile pyIsSpace = w := by
      rw [List.takeWhile_append]
      rw [if_pos (by rw [List.takeWhile_eq_self_iff.mpr hws])]
      rw [List.cons_append, List.takeWhile_cons, if_neg (by simp [hxs])]
      simp
    unfold kwPairAt
    simp only [h1]
    rw [hrun]
    simp only [Bool.and_eq_true, ne_eq, decide_eq_true_eq, Option.isSome_iff_exists]
    refine ⟨hw, post, ?_⟩
    rw [List.drop_left]
    exact (stripPrefixCI_some_iff _ _ _).mpr ⟨x :: xs, rfl, hb⟩

/-- Correctness of the case-insensitive literal scanner. -/
theorem reAny_lit_iff (a s : Str) :
    reAny (litAt a) s = true ↔ ContainsCILit a s := by
  rw [reAny_iff]
  constructor
  · rintro ⟨l₁, l₂, rfl, h2⟩
    unfold litAt at h2
    rw [Option.isSome_iff_exists] at h2
    obtain ⟨r, hr⟩ := h2
    obtain ⟨u, rfl, hu⟩ := (stripPrefixCI_some_iff _ _ _).mp hr
    exact ⟨l₁, u, r, by simp, hu⟩
  · rintro ⟨pre, aSeg, post, rfl, ha⟩
    refine ⟨pre, aSeg ++ post, by simp only [List.append_assoc], ?_⟩
    unfold litAt
    rw [Option.isSome_iff_exists]
    exact ⟨post, (stripPrefixCI_some_iff _ _ _).mpr ⟨aSeg, rfl, ha⟩⟩

/-! ### Claim theorems -/

/-- C3 (amended): `_escape_html` replaces, in this fixed order, `&` by
`&amp;`, `<` by `&lt;`, `>` by `&gt;`, `"` by `&quot;` and the apostrophe by
`&#x27;`, with no other changes — the five ordered replacements are exactly
one character-wise escaping pass, so earlier output is never re-escaped.
Empty input is returned unchanged; but `None` input is NOT returned
unchanged: the function has no `None` guard, so the first `.replace` raises
`AttributeError`. -/
theorem escape_fixed_order_charwise :
    (∀ t : Str, escapeHtml t = t.flatMap escChar) ∧
    escapeHtml [] = [] ∧
    escapeHtmlOpt none = Except.error PyErr.attributeError :=
  ⟨escapeHtml_eq_flatMap, by rw [escapeHtml_eq_flatMap]; rfl, rfl⟩

/-- C3 counterexample: on `None` input the escaping utility does not return
the input unchanged — it raises `AttributeError`. -/
theorem escape_none_raises : escapeHtmlOpt none ≠ Except.ok none := by decide

/-- C4: the detector returns true iff the text contains all three of a
case-insensitive match for `estimated\s+time:`, for `confidence:`, and for
`schedule\s+summary:`; and any text it classifies as general (including the
example with `Confidence:` and `Schedule Summary:` but no `Estimated
time:`) is rendered by `_format_general_content`, not by the handyman
renderer. -/
theorem detector_conjunctive_and_dispatch :
    (∀ content : Str,
      isHandymanResponse content = true ↔
        ContainsCIPair ("estimated".data) ("time:".data) content ∧
        ContainsCILit ("confidence:".data) content ∧
        ContainsCIPair ("schedule".data) ("summary:".data) content) ∧
    (∀ content : Str, isHandymanResponse content = false →
      formatMessageContent content = formatGeneralContent content) := by
  constructor
  · intro content
    unfold isHandymanResponse
    simp only [Bool.and_eq_true]
    rw [reAny_kwPair_iff _ _ _ (by decide), reAny_lit_iff,
      reAny_kwPair_iff _ _ _ (by decide)]
    exact and_assoc
  · intro content h
    unfold formatMessageContent
    by_cases hc : content = []
    · subst hc
      rw [if_pos rfl]
      simp [formatGeneralContent, splitOnSeq, mapParagraphs, pyStrip, joinStr, Except.map]
    · rw [if_neg hc, if_neg (by simp [h])]

/-- C1 (code-bug evidence): the formatter does NOT return a markup string
for every input — on the plain text `hello` it reaches
`_format_inline_text`, whose italic substitution compiles the
variable-width look-behind pattern and raises `re.error`, which escapes to
the caller. -/
theorem formatter_raises_on_plain_text :
    formatMessageContent ("hello".data) = Except.error PyErr.reError := by decide

/-- C2 (code-bug evidence): the code-span pass wraps the captured group
without applying `_escape_html` — on input `` `a<b` `` it produces
`<code>a<b</code>` with a raw unescaped `<` — and `_format_inline_text`
then raises `re.error` at the italic substitution instead of returning
markup at all. -/
theorem code_span_unescaped_then_raises :
    codeSub (([bquote] ++ "a<b".data) ++ [bquote]) = ("<code>a<b</code>").data ∧
    formatInlineText (([bquote] ++ "a<b".data) ++ [bquote]) = Except.error PyErr.reError :=
  ⟨by decide, by decide⟩

/-- C7 (code-bug evidence): on `***text***` the bold pass does run before
the italic pass and consumes the `**`-delimited span (producing
`<strong>*text</strong>*`), but the italic pass never runs to completion:
`_format_inline_text` raises `re.error` when compiling the italic
pattern's variable-width look-behind. -/
theorem bold_first_then_italic_raises :
    boldSub '_' (boldSub '*' (codeSub ("***text***".data))) =
      ("<strong>*text</strong>*").data ∧
    formatInlineText ("***text***".data) = Except.error PyErr.reError :=
  ⟨by decide, by decide⟩

/-- C8 (code-bug evidence): on the two-bullet list paragraph
`- alpha\n- beta` the segmenter enters the list branch but raises
`re.error` from `_format_inline_text` while formatting the first list
item, so no list markup (closed or otherwise) is ever emitted. -/
theorem list_branch_raises :
    formatParagraph ("- alpha\n- beta".data) = Except.error PyErr.reError := by decide

/-- C9 (code-bug evidence): on marker-free prose `line one\nline two` the
general formatter does not produce a paragraph wrapper — it raises
`re.error` from `_format_inline_text` on the first line. -/
theorem general_prose_raises :
    formatGeneralContent ("line one\nline two".data) = Except.error PyErr.reError := by
  decide

/-! ### Lemmas about the handyman part lists -/

theorem span_wrap_ne_li (a x b : Str) (hl : 4 < a.length + b.length) :
    (a ++ x ++ b) ≠ ("<li>").data := by
  intro h
  have h2 := congrArg List.length h
  simp only [List.length_append] at h2
  have h4 : (("<li>").data).length = 4 := by decide
  rw [h4] at h2
  omega

theorem count_li_item_quad (em x : Str) :
    List.count (("<li>").data)
      [("<li>").data, em, ("<span>").data ++ x ++ ("</span>").data, ("</li>").data] =
      1 + List.count (("<li>").data) [em] := by
  have hx : (("<span>").data ++ x ++ ("</span>").data) ≠ ("<li>").data :=
    span_wrap_ne_li _ x _ (by decide)
  simp [List.count_cons, hx]
  omega

theorem questionLoopParts_eq_flatMap (ls : List Str) :
    questionLoopParts ls =
      ((ls.map pyStrip).filterMap questionItemOfLine).flatMap questionLi := by
  induction ls with
  | nil => rfl
  | cons l rest ih =>
    simp only [questionLoopParts, questionItemOfLine, List.map_cons, List.filterMap_cons]
    by_cases h1 : (pyStrip l ≠ [] && pyStartsWith ('-' :: ' ' :: []) (pyStrip l)) = true
    · rw [if_pos h1, if_pos h1]
      by_cases h2 : pyStrip ((pyStrip l).drop 2) ≠ []
      · rw [if_pos h2, if_pos h2]
        simp [ih]
      · rw [if_neg h2, if_neg h2]
        exact ih
    · rw [if_neg h1, if_neg h1]
      exact ih

theorem count_li_questionLi (items : List Str) :
    List.count (("<li>").data) (items.flatMap questionLi) = items.length := by
  induction items with
  | nil => rfl
  | cons q rest ih =>
    rw [List.flatMap_cons, List.count_append, ih]
    unfold questionLi
    rw [count_li_item_quad]
    have hem : List.count (("<li>").data) [("<span class=\"list-emoji\">💭</span>").data] = 0 := by
      decide
    rw [hem, List.length_cons]
    omega

/-- C5: when the summary regex matched and bullets were collected, the
summary section of the handyman output contains exactly one `<li>` part,
and its item text is the escaped comma-joined concatenation of all the
collected bullet texts; the section appears verbatim inside the emitted
part list. -/
theorem summary_single_combined_item (content g : Str)
    (hm : summaryMatch content = some g) (hne : summaryItemsOf g ≠ []) :
    (∃ pre post, htmlPartsOf content = pre ++ summarySection g ++ post) ∧
    List.count (("<li>").data) (summarySection g) = 1 ∧
    (("<span>").data ++ escapeHtml (joinStr (", ".data) (summaryItemsOf g)) ++ ("</span>").data)
      ∈ summarySection g := by
  refine ⟨?_, ?_, ?_⟩
  · refine ⟨headerParts (timeMatch content) (confMatch content),
      (match questionsMatch content with
       | some g2 => questionSection g2
       | none => []), ?_⟩
    unfold htmlPartsOf
    rw [hm]
  · unfold summarySection
    rw [if_pos hne]
    rw [List.count_append, List.count_append]
    have h1 : List.count (("<li>").data)
        [("<div class=\"section-header\">").data,
         ("<span class=\"section-emoji\">📋</span>").data,
         ("<span>Schedule Summary</span>").data,
         ("</div>").data,
         ("<ul class=\"enhanced-list task-list\">").data] = 0 := by decide
    have h3 : List.count (("<li>").data) [("</ul>").data] = 0 := by decide
    rw [h1, h3, count_li_item_quad]
    have h2 : List.count (("<li>").data)
        [("<span class=\"list-emoji\">🔧</span>").data] = 0 := by decide
    rw [h2]
  · unfold summarySection
    rw [if_pos hne]
    simp

/-- C6: when the questions regex matched, the questions section renders one
separate `<li>` part per collected bullet, in bullet order (the loop output
is exactly the concatenation of one item quadruple per bullet), the number
of `<li>` parts equals the number of bullets, and the section appears
verbatim inside the emitted part list. -/
theorem questions_one_item_per_bullet (content g : Str)
    (hm : questionsMatch content = some g) :
    (∃ pre post, htmlPartsOf content = pre ++ questionSection g ++ post) ∧
    questionLoopParts ((pyStrip g).splitOn '\n') = (questionItemsOf g).flatMap questionLi ∧
    List.count (("<li>").data) (questionSection g) = (questionItemsOf g).length := by
  refine ⟨?_, ?_, ?_⟩
  · refine ⟨headerParts (timeMatch content) (confMatch content) ++
      (match summaryMatch content with
       | some g2 => summarySection g2
       | none => []), [], ?_⟩
    unfold htmlPartsOf
    rw [hm]
    simp [List.append_assoc]
  · exact questionLoopParts_eq_flatMap _
  · unfold questionSection
    rw [List.count_append, List.count_append]
    have h1 : List.count (("<li>").data)
        [("<div class=\"section-header\">").data,
         ("<span class=\"section-emoji\">❓</span>").data,
         ("<span>To improve this estimate, please answer the following</span>").data,
         ("</div>").data,
         ("<ul class=\"enhanced-list question-list\">").data] = 0 := by decide
    have h3 : List.count (("<li>").data) [("</ul>").data] = 0 := by decide
    rw [h1, h3, questionLoopParts_eq_flatMap, count_li_questionLi]
    unfold questionItemsOf
    omega

/-! ### Character provenance of the handyman output -/


theorem pool_sub {x : Str} (hx : x ∈ allFixedParts) {c : Char} (hc : c ∈ x) :
    c ∈ templatePool :=
  List.mem_flatten.mpr ⟨x, hx, hc⟩

theorem joinStr_nil_eq_flatten (l : List Str) : joinStr [] l = l.flatten := by
  induction l with
  | nil => rfl
  | cons x rest ih =>
    cases rest with
    | nil => simp [joinStr]
    | cons y t =>
      rw [joinStr, List.flatten_cons, ih]
      simp

theorem badgeClass_chars (x : Str) {c : Char} (hc : c ∈ badgeClass x) :
    c ∈ templatePool := by
  unfold badgeClass at hc
  split at hc
  · exact pool_sub (by decide) hc
  · split at hc
    · exact pool_sub (by decide) hc
    · exact pool_sub (by decide) hc

theorem header_part_chars (tm cm : Option Str) (part : Str)
    (hp : part ∈ headerParts tm cm) (ch : Char) (hc : ch ∈ part) :
    ch ∈ templatePool ∨
    (∃ t, tm = some t ∧ ch ∈ escapeHtml (pyStrip t)) ∨
    (∃ c, cm = some c ∧ ch ∈ escapeHtml (pyStrip c)) := by
  unfold headerParts at hp
  split at hp
  case isFalse => simp at hp
  case isTrue =>
    rw [List.mem_cons] at hp
    rcases hp with rfl | hp
    · exact Or.inl (pool_sub (by decide) hc)
    rw [List.mem_append, List.mem_append] at hp
    rcases hp with (hp | hp) | hp
    · cases tm with
      | none => simp at hp
      | some t =>
        unfold timeRowParts at hp
        simp only [List.mem_cons, List.not_mem_nil, or_false] at hp
        rcases hp with rfl | rfl | rfl | rfl | rfl
        · exact Or.inl (pool_sub (by decide) hc)
        · exact Or.inl (pool_sub (by decide) hc)
        · exact Or.inl (pool_sub (by decide) hc)
        · rw [List.mem_append, List.mem_append] at hc
          rcases hc with (hc | hc) | hc
          · exact Or.inl (pool_sub (by decide) hc)
          · exact Or.inr (Or.inl ⟨t, rfl, hc⟩)
          · exact Or.inl (pool_sub (by decide) hc)
        · exact Or.inl (pool_sub (by decide) hc)
    · cases cm with
      | none => simp at hp
      | some c =>
        unfold confRowParts at hp
        simp only [List.mem_cons, List.not_mem_nil, or_false] at hp
        rcases hp with rfl | rfl | rfl | rfl | rfl
        · exact Or.inl (pool_sub (by decide) hc)
        · exact Or.inl (pool_sub (by decide) hc)
        · exact Or.inl (pool_sub (by decide) hc)
        · rw [List.mem_append, List.mem_append, List.mem_append, List.mem_append] at hc
          rcases hc with (((hc | hc) | hc) | hc) | hc
          · exact Or.inl (pool_sub (by decide) hc)
          · exact Or.inl (badgeClass_chars _ hc)
          · exact Or.inl (pool_sub (by decide) hc)
          · exact Or.inr (Or.inr ⟨c, rfl, hc⟩)
          · exact Or.inl (pool_sub (by decide) hc)
        · exact Or.inl (pool_sub (by decide) hc)
    · simp only [List.mem_cons, List.not_mem_nil, or_false] at hp
      subst hp
      exact Or.inl (pool_sub (by decide) hc)

theorem summary_part_chars (g : Str) (part : Str) (hp : part ∈ summarySection g)
    (ch : Char) (hc : ch ∈ part) :
    ch ∈ templatePool ∨ ch ∈ escapeHtml (joinStr (", ".data) (summaryItemsOf g)) := by
  unfold summarySection at hp
  rw [List.mem_append, List.mem_append] at hp
  rcases hp with (hp | hp) | hp
  · simp only [List.mem_cons, List.not_mem_nil, or_false] at hp
    rcases hp with rfl | rfl | rfl | rfl | rfl
    · exact Or.inl (pool_sub (by decide) hc)
    · exact Or.inl (pool_sub (by decide) hc)
    · exact Or.inl (pool_sub (by decide) hc)
    · exact Or.inl (pool_sub (by decide) hc)
    · exact Or.inl (pool_sub (by decide) hc)
  · split at hp
    case isTrue =>
      simp only [List.mem_cons, List.not_mem_nil, or_false] at hp
      rcases hp with rfl | rfl | rfl | rfl
      · exact Or.inl (pool_sub (by decide) hc)
      · exact Or.inl (pool_sub (by decide) hc)
      · rw [List.mem_append, List.mem_append] at hc
        rcases hc with (hc | hc) | hc
        · exact Or.inl (pool_sub (by decide) hc)
        · exact Or.inr hc
        · exact Or.inl (pool_sub (by decide) hc)
      · exact Or.inl (pool_sub (by decide) hc)
    case isFalse => simp at hp
  · simp only [List.mem_cons, List.not_mem_nil, or_false] at hp
    subst hp
    exact Or.inl (pool_sub (by decide) hc)

theorem question_part_chars (g : Str) (part : Str) (hp : part ∈ questionSection g)
    (ch : Char) (hc : ch ∈ part) :
    ch ∈ templatePool ∨ ∃ q, q ∈ questionItemsOf g ∧ ch ∈ escapeHtml q := by
  unfold questionSection at hp
  rw [List.mem_append, List.mem_append] at hp
  rcases hp with (hp | hp) | hp
  · simp only [List.mem_cons, List.not_mem_nil, or_false] at hp
    rcases hp with rfl | rfl | rfl | rfl | rfl
    · exact Or.inl (pool_sub (by decide) hc)
    · exact Or.inl (pool_sub (by decide) hc)
    · exact Or.inl (pool_sub (by decide) hc)
    · exact Or.inl (pool_sub (by decide) hc)
    · exact Or.inl (pool_sub (by decide) hc)
  · rw [questionLoopParts_eq_flatMap, List.mem_flatMap] at hp
    obtain ⟨q, hq, hpq⟩ := hp
    unfold questionLi at hpq
    simp only [List.mem_cons, List.not_mem_nil, or_false] at hpq
    rcases hpq with rfl | rfl | rfl | rfl
    · exact Or.inl (pool_sub (by decide) hc)
    · exact Or.inl (pool_sub (by decide) hc)
    · rw [List.mem_append, List.mem_append] at hc
      rcases hc with (hc | hc) | hc
      · exact Or.inl (pool_sub (by decide) hc)
      · exact Or.inr ⟨q, hq, hc⟩
      · exact Or.inl (pool_sub (by decide) hc)
    · exact Or.inl (pool_sub (by decide) hc)
  · simp only [List.mem_cons, List.not_mem_nil, or_false] at hp
    subst hp
    exact Or.inl (pool_sub (by decide) hc)

/-- C10: every character of the handyman renderer's output comes either
from the fixed template strings (labels, icons, tags, badge classes) or
from the escaped text of one of the four extracted fields; content lines
outside the extracted fields contribute nothing to the output. -/
theorem handyman_output_only_fields_and_template (content : Str) (ch : Char)
    (h : ch ∈ formatHandymanResponse content) :
    ch ∈ templatePool ∨
    (∃ t, timeMatch content = some t ∧ ch ∈ escapeHtml (pyStrip t)) ∨
    (∃ c, confMatch content = some c ∧ ch ∈ escapeHtml (pyStrip c)) ∨
    (∃ g, summaryMatch content = some g ∧
      ch ∈ escapeHtml (joinStr (", ".data) (summaryItemsOf g))) ∨
    (∃ g q, questionsMatch content = some g ∧ q ∈ questionItemsOf g ∧
      ch ∈ escapeHtml q) := by
  unfold formatHandymanResponse at h
  rw [joinStr_nil_eq_flatten, List.mem_flatten] at h
  obtain ⟨part, hpart, hc⟩ := h
  unfold htmlPartsOf at hpart
  rw [List.mem_append, List.mem_append] at hpart
  rcases hpart with (hpart | hpart) | hpart
  · rcases header_part_chars _ _ _ hpart _ hc with h1 | ⟨t, ht, h1⟩ | ⟨c, hcm, h1⟩
    · exact Or.inl h1
    · exact Or.inr (Or.inl ⟨t, ht, h1⟩)
    · exact Or.inr (Or.inr (Or.inl ⟨c, hcm, h1⟩))
  · cases hs : summaryMatch content with
    | none => rw [hs] at hpart; simp at hpart
    | some g =>
      rw [hs] at hpart
      rcases summary_part_chars _ _ hpart _ hc with h1 | h1
      · exact Or.inl h1
      · exact Or.inr (Or.inr (Or.inr (Or.inl ⟨g, rfl, h1⟩)))
  · cases hs : questionsMatch content with
    | none => rw [hs] at hpart; simp at hpart
    | some g =>
      rw [hs] at hpart
      rcases question_part_chars _ _ hpart _ hc with h1 | ⟨q, hq, h1⟩
      · exact Or.inl h1
      · exact Or.inr (Or.inr (Or.inr (Or.inr ⟨g, q, rfl, hq, h1⟩)))

/-! ### Witnesses -/

/-- C4 witness: the spec's own example — `Confidence:` and
`Schedule Summary:` present but `Estimated time:` missing — classifies as
general and is dispatched to the general formatter. -/
theorem detector_dispatch_witness :
    isHandymanResponse c4Input = false ∧
    formatMessageContent c4Input = formatGeneralContent c4Input :=
  ⟨by decide, detector_conjunctive_and_dispatch.2 c4Input (by decide)⟩

/-- C5 witness: on the spec's example the collected bullets are
`Replace faucet` and `Check pipes`, the whole emitted part list contains
exactly one `<li>`, and its text is the comma-joined
`Replace faucet, Check pipes`. -/
theorem summary_collapsing_witness :
    summaryMatch c5Input = some c5Group ∧
    summaryItemsOf c5Group ≠ [] ∧
    joinStr (", ".data) (summaryItemsOf c5Group) = ("Replace faucet, Check pipes").data ∧
    escapeHtml (("Replace faucet, Check pipes").data) = ("Replace faucet, Check pipes").data ∧
    List.count (("<li>").data) (htmlPartsOf c5Input) = 1 ∧
    ((∃ pre post, htmlPartsOf c5Input = pre ++ summarySection c5Group ++ post) ∧
     List.count (("<li>").data) (summarySection c5Group) = 1 ∧
     (("<span>").data ++ escapeHtml (joinStr (", ".data) (summaryItemsOf c5Group)) ++
        ("</span>").data) ∈ summarySection c5Group) :=
  ⟨by decide, by decide, by decide, by decide, by decide,
   summary_single_combined_item c5Input c5Group (by decide) (by decide)⟩

/-- C6 witness: a questions block with two bullets yields the two items in
bullet order and exactly two `<li>` parts in the questions section. -/
theorem question_noncollapsing_witness :
    questionsMatch c6Input = some c6Group ∧
    questionItemsOf c6Group =
      [("Is the door interior?").data, ("Is the frame damaged?").data] ∧
    ((∃ pre post, htmlPartsOf c6Input = pre ++ questionSection c6Group ++ post) ∧
     questionLoopParts ((pyStrip c6Group).splitOn '\n') =
       (questionItemsOf c6Group).flatMap questionLi ∧
     List.count (("<li>").data) (questionSection c6Group) =
       (questionItemsOf c6Group).length) :=
  ⟨by decide, by decide, questions_one_item_per_bullet c6Input c6Group (by decide)⟩

set_option maxRecDepth 8192 in
/-- C10 witness: on an input with prose before, between and after the
template fields, a character of the rendered output is accounted for by
the template pool or one of the extracted fields. -/
theorem handyman_provenance_witness :
    ('P' ∈ formatHandymanResponse c10Input) ∧
    (('P' ∈ templatePool) ∨
     (∃ t, timeMatch c10Input = some t ∧ 'P' ∈ escapeHtml (pyStrip t)) ∨
     (∃ c, confMatch c10Input = some c ∧ 'P' ∈ escapeHtml (pyStrip c)) ∨
     (∃ g, summaryMatch c10Input = some g ∧
       'P' ∈ escapeHtml (joinStr (", ".data) (summaryItemsOf g))) ∨
     (∃ g q, questionsMatch c10Input = some g ∧ q ∈ questionItemsOf g ∧
       'P' ∈ escapeHtml q)) :=
  ⟨by decide, handyman_output_only_fields_and_template c10Input 'P' (by decide)⟩

end AHS
